import Mathlib

/-!
Verification of the SQL Server growth simulator core (`growth_utils.py`)
against its natural-language specification.

Shallow embedding conventions:
* Timestamps (`datetime` values) are modelled as exact rational numbers of
  seconds on a linear proleptic time line (naive datetimes: one day is exactly
  86400 seconds, `timedelta(days=1)` adds 86400).  Calendar structure (month
  and day fields) never enters any of the operations used by the code
  (`replace(hour=h)` and `+ timedelta`), so this linear model is faithful.
* `random.random()` draws are modelled as rationals `u` with `0 ≤ u < 1`;
  `random.uniform(a,b)` as `a + (b-a)*u`; `random.randint(a,b)` as
  `a + ⌊u*(b-a+1)⌋`; `random.choice(l)` as `l[⌊u*len(l)⌋]`.
* Python `int(x)` truncates toward zero (`truncInt`); Python `round(x, 3)`
  rounds to the nearest multiple of 1/1000 (`round3`; the tie-break direction
  is irrelevant for every statement proved here).
* Python dicts are modelled as association lists in iteration order.
-/

namespace GrowthSim

/-- Python `int(x)`: truncation toward zero. -/
def truncInt (q : ℚ) : ℤ := if q < 0 then -⌊-q⌋ else ⌊q⌋

/-- Python `random.uniform a b` applied to a unit draw `u ∈ [0,1)`. -/
def pyUniform (a b u : ℚ) : ℚ := a + (b - a) * u

/-- Python `random.randint a b` (inclusive bounds) applied to a unit draw. -/
def pyRandint (a b : ℕ) (u : ℚ) : ℕ := a + (⌊u * ((b : ℚ) - (a : ℚ) + 1)⌋).toNat

/-- Python `random.choice l` applied to a unit draw. -/
def pyChoice (l : List ℤ) (u : ℚ) : ℤ := l.getD (⌊u * (l.length : ℚ)⌋).toNat 0

/-- Python `round(x, 3)`: nearest multiple of `1/1000`. -/
def round3 (q : ℚ) : ℚ := ((round (q * 1000) : ℤ) : ℚ) / 1000

/-- A well-formed `random.random()` draw. -/
def UnitDraw (u : ℚ) : Prop := 0 ≤ u ∧ u < 1

/-! ### Period clock (`calculate_next_simulation_period`) -/

/-- `datetime.hour` of a timestamp measured in seconds. -/
def hourOf (t : ℚ) : ℤ := ⌊t / 3600⌋ % 24

/-- `datetime.replace(hour := h)`: keep the date and the minute/second/
microsecond remainder, force the hour component to `h`. -/
def replaceHour (t : ℚ) (h : ℤ) : ℚ := t + ((h : ℚ) - (hourOf t : ℚ)) * 3600

/-- `datetime(2025, 5, 1, 6, 0, 0)`: proleptic-Gregorian day ordinal of
2025-05-01 is 739372 (`date(2025,5,1).toordinal()`), at 06:00. -/
def start_date : ℚ := 739372 * 86400 + 6 * 3600

/-- One entry of the per-server state map, as inspected by the period clock.
`lastPeriodEnd = some t` models an entry whose `last_period.period_end`
parses (via `datetime.fromisoformat`) to timestamp `t`; `none` collapses all
the failure paths the code skips over: the value is not a dict, has no
(truthy) `last_period`, no `period_end` key, or an unparseable timestamp. -/
structure DbState where
  lastPeriodEnd : Option ℚ
deriving DecidableEq

/-- The record returned by `calculate_next_simulation_period` (the code
returns the two timestamps in ISO format; we keep them as timestamps). -/
structure Period where
  period_start : ℚ
  period_end : ℚ
  period_type : String
deriving DecidableEq

/-- One step of the scan: `if latest_period_end is None or period_end >
latest_period_end: latest_period_end = period_end`, where an unparseable entry
(`cur = none`) is skipped by the `except: continue`. -/
def latestStep (cur acc : Option ℚ) : Option ℚ :=
  match cur, acc with
  | none, a => a
  | some t, none => some t
  | some t, some m => if t > m then some t else some m

/-- The scan `for db_name, db_state in server_state.items(): ...`, with
accumulator `acc`. -/
def latestAux (acc : Option ℚ) : List (String × DbState) → Option ℚ
  | [] => acc
  | e :: rest => latestAux (latestStep e.2.lastPeriodEnd acc) rest

/-- Latest parseable `period_end` across all entities of a server state. -/
def latestPeriodEnd (st : List (String × DbState)) : Option ℚ :=
  latestAux none st

/-- `calculate_next_simulation_period(server_state)`.  The argument is
`none` for Python `None`; `some []` for an empty dict (`if server_state:` is
false in both cases, and the loop over an empty dict is a no-op anyway, so
both take the first-execution branch). -/
def calculate_next_simulation_period (server_state : Option (List (String × DbState))) :
    Period :=
  let latest :=
    match server_state with
    | none => none
    | some st => latestPeriodEnd st
  match latest with
  | some t =>
      if hourOf t = 6 then
        { period_start := t, period_end := replaceHour t 18, period_type := "day" }
      else
        { period_start := t, period_end := replaceHour (t + 86400) 6,
          period_type := "night" }
  | none =>
      { period_start := start_date, period_end := replaceHour start_date 18,
        period_type := "day" }

/-- `datetime.date()` as a proleptic day ordinal. -/
def dayOf (t : ℚ) : ℤ := ⌊t / 86400⌋

/-- The sub-hour remainder of a timestamp: `minute*60 + second + microsecond`
part, in seconds.  Preserved by `datetime.replace(hour := h)`. -/
def subHour (t : ℚ) : ℚ := t - (⌊t / 3600⌋ : ℚ) * 3600

/-! ### I/O generation (`generate_raw_io_data`) -/

/-- The record returned by `generate_raw_io_data`. -/
structure IOResult where
  reads : ℤ
  writes : ℤ
  read_gb : ℚ
  write_gb : ℚ
  cumulative_reads : ℤ
  cumulative_writes : ℤ
deriving DecidableEq

/-- The per-class, per-period-type scaling of the baseline rates (the
day/night multiplier table). -/
def ioRates (reads_per_second_baseline writes_per_second_baseline : ℚ)
    (period_type server_type : String) : ℚ × ℚ :=
  if period_type = "day" then
    if server_type = "oltp_production" then
      (reads_per_second_baseline * 2.8, writes_per_second_baseline * 2.8)
    else if server_type = "reporting_analytics" then
      (reads_per_second_baseline * 0.8, writes_per_second_baseline * 0.8)
    else
      (reads_per_second_baseline * 3.0, writes_per_second_baseline * 1.2)
  else
    if server_type = "oltp_production" then
      (reads_per_second_baseline * 0.4, writes_per_second_baseline * 0.4)
    else if server_type = "reporting_analytics" then
      (reads_per_second_baseline * 0.5, writes_per_second_baseline * 4.0)
    else
      (reads_per_second_baseline * 0.8, writes_per_second_baseline * 0.8)

/-- `generate_raw_io_data`.  `cumulative_reads0`/`cumulative_writes0` model
`db_state.get('cumulative_reads', 0)` (absent key → `none` → 0); the two
baselines come from `baseline['io_baselines']`; `uR`/`uW` are the two
`random.uniform(0.85, 1.15)` unit draws. -/
def generate_raw_io_data (cumulative_reads0 cumulative_writes0 : Option ℤ)
    (reads_per_second_baseline writes_per_second_baseline : ℚ)
    (period_type server_type : String) (uR uW : ℚ) : IOResult :=
  let rates := ioRates reads_per_second_baseline writes_per_second_baseline
    period_type server_type
  let total_seconds : ℚ := 12 * 3600
  let reads := truncInt (rates.1 * total_seconds * pyUniform 0.85 1.15 uR)
  let writes := truncInt (rates.2 * total_seconds * pyUniform 0.85 1.15 uW)
  { reads := reads, writes := writes,
    read_gb := round3 ((reads : ℚ) * 8192 / 1024 ^ 3),
    write_gb := round3 ((writes : ℚ) * 8192 / 1024 ^ 3),
    cumulative_reads := cumulative_reads0.getD 0 + reads,
    cumulative_writes := cumulative_writes0.getD 0 + writes }

/-- The per-run inputs of one `generate_raw_io_data` invocation. -/
structure IORun where
  reads_per_second_baseline : ℚ
  writes_per_second_baseline : ℚ
  period_type : String
  server_type : String
  uR : ℚ
  uW : ℚ

/-- Well-formed run inputs: non-negative configured baselines and genuine
`random.uniform` draws. -/
def IORun.Valid (r : IORun) : Prop :=
  0 ≤ r.reads_per_second_baseline ∧ 0 ≤ r.writes_per_second_baseline ∧
    UnitDraw r.uR ∧ UnitDraw r.uW

/-- The cumulative counters of an entity after a sequence of runs, starting
from counters `c`: the orchestrator invokes `generate_raw_io_data` once per
run and the updated state is persisted. -/
def cumulativeAfter (c : ℤ × ℤ) (runs : List IORun) : ℤ × ℤ :=
  runs.foldl
    (fun c r =>
      let res := generate_raw_io_data (some c.1) (some c.2)
        r.reads_per_second_baseline r.writes_per_second_baseline
        r.period_type r.server_type r.uR r.uW
      (res.cumulative_reads, res.cumulative_writes))
    c

/-! ### Size generation (`generate_raw_size_data`) -/

/-- The unit draws consumed by `generate_raw_size_data`: up to two
probabilistic branch draws, one growth-range draw, one jitter draw. -/
structure SizeDraws where
  branch1U : ℚ
  branch2U : ℚ
  growthU : ℚ
  jitterU : ℚ

/-- The result record of `generate_raw_size_data`. -/
structure SizeResult where
  total_gb : ℚ
  data_file_gb : ℚ
  log_file_gb : ℚ
  file_count : ℤ
deriving DecidableEq

/-- The pattern-keyed growth draw of `generate_raw_size_data`. -/
def sizeGrowth (growth_pattern period_type : String) (d : SizeDraws) : ℚ :=
  if growth_pattern = "stable" then pyUniform (-0.5) 0.5 d.growthU
  else if growth_pattern = "no_retention" then pyUniform 0.5 2.0 d.growthU
  else if growth_pattern = "growing_fast" then pyUniform 2.0 5.0 d.growthU
  else if growth_pattern = "broken_cleanup" then
    if d.branch1U < 0.8 then pyUniform 1.0 3.0 d.growthU
    else pyUniform (-1.0) 0.5 d.growthU
  else if growth_pattern = "archive_failure" then
    if period_type = "night" then pyUniform 5.0 15.0 d.growthU
    else pyUniform 0.5 2.0 d.growthU
  else if growth_pattern = "etl_cycle" then
    if period_type = "night" ∧ d.branch1U < 0.3 then pyUniform 5.0 10.0 d.growthU
    else if d.branch2U < 0.2 then pyUniform (-8.0) (-3.0) d.growthU
    else pyUniform (-0.5) 0.5 d.growthU
  else if growth_pattern = "static" then pyUniform (-0.01) 0.01 d.growthU
  else pyUniform (-0.5) 0.5 d.growthU

/-- The class-keyed data-file fraction of the data/log split. -/
def dataRatio (server_type : String) : ℚ :=
  if server_type = "oltp_production" then 0.75
  else if server_type = "reporting_analytics" then 0.90
  else 0.95

/-- `generate_raw_size_data`.  `current_size_gb0` models
`db_state.get('current_size_gb', 50.0)` and `growth_pattern0` models
`db_state.get('growth_pattern', 'stable')`. -/
def generate_raw_size_data (current_size_gb0 : Option ℚ)
    (growth_pattern0 : Option String) (period_type server_type : String)
    (d : SizeDraws) : SizeResult :=
  let current_size := current_size_gb0.getD 50.0
  let growth_pattern := growth_pattern0.getD "stable"
  let growth := sizeGrowth growth_pattern period_type d * pyUniform 0.9 1.1 d.jitterU
  let min_size : ℚ := if server_type ≠ "reference_config" then 10.0 else 5.0
  let new_size := max min_size (current_size + growth)
  let data_ratio := dataRatio server_type
  { total_gb := round3 new_size,
    data_file_gb := round3 (new_size * data_ratio),
    log_file_gb := round3 (new_size * (1 - data_ratio)),
    file_count := if new_size < 50 then 2 else 4 }

/-! ### Table data and cleanup (`generate_raw_table_data`,
`_calculate_realistic_cleanup`) -/

/-- The unit draws consumed by one `_calculate_realistic_cleanup` call:
the run/no-run draw, the (dead) base-percentage draw, the two special-case
branch draws and the deletion-factor draw. -/
structure CleanupDraws where
  runU : ℚ
  baseU : ℚ
  branch1U : ℚ
  branch2U : ℚ
  factorU : ℚ

/-- Genuine `random` draws for a cleanup call. -/
def CleanupDraws.Valid (d : CleanupDraws) : Prop :=
  UnitDraw d.runU ∧ UnitDraw d.baseU ∧ UnitDraw d.branch1U ∧
    UnitDraw d.branch2U ∧ UnitDraw d.factorU

/-- The pattern-dependent cleanup probability of
`_calculate_realistic_cleanup`. -/
def cleanupProbability (growth_pattern : String) : ℚ :=
  if growth_pattern = "broken_cleanup" then 0.2
  else if growth_pattern = "no_retention" then 0.05
  else if growth_pattern = "stable" then 0.7
  else 0.75

/-- Does `s` start with `sub`? -/
def startsWithChars : List Char → List Char → Bool
  | [], _ => true
  | _ :: _, [] => false
  | c :: cs, d :: ds => c == d && startsWithChars cs ds

/-- Does `s` contain `sub` as a contiguous run? -/
def containsChars (sub : List Char) : List Char → Bool
  | [] => sub.isEmpty
  | d :: ds => startsWithChars sub (d :: ds) || containsChars sub ds

/-- Python `sub in s` (contiguous substring test). -/
def strContains (sub s : String) : Bool := containsChars sub.toList s.toList

/-- The table-name-keyed base cleanup percentage (this value is computed by
the code but then unconditionally overwritten by the three-branch policy). -/
def baseCleanupPct (table_name : String) (u : ℚ) : ℚ :=
  let lower := table_name.toLower
  if strContains "log" lower || strContains "audit" lower then
    pyUniform 0.20 0.50 u
  else if strContains "temp" lower || strContains "staging" lower then
    pyUniform 0.70 0.95 u
  else
    pyUniform 0.05 0.25 u

/-- `_calculate_realistic_cleanup(table_name, table_state, cleanup_history,
period_growth, growth_pattern, period_type)`: returns
`(cleanup_occurred, rows_deleted)`.  Of `table_state` only `rows` is read;
the `cleanup_history` and `period_type` parameters are never read by the
function body and are omitted here. -/
def calcRealisticCleanup (table_name : String) (rows period_growth : ℤ)
    (growth_pattern : String) (d : CleanupDraws) : Bool × ℤ :=
  let cleanup_probability := cleanupProbability growth_pattern
  if d.runU > cleanup_probability then (false, 0)
  else
    let current_rows := rows
    let rows_to_delete :=
      truncInt ((current_rows : ℚ) * baseCleanupPct table_name d.baseU)
    let rows_to_delete :=
      if d.branch1U < 0.15 then
        truncInt ((period_growth : ℚ) * pyUniform 1.2 2.0 d.factorU)
      else if d.branch2U < 0.10 then period_growth
      else truncInt ((period_growth : ℚ) * pyUniform 0.3 0.9 d.factorU)
    let max_deletion := truncInt ((current_rows : ℚ) * 0.5)
    let rows_to_delete := min rows_to_delete max_deletion
    let rows_to_delete := max 0 rows_to_delete
    (true, rows_to_delete)

/-- The unit draws of one table's processing in
`generate_raw_table_data`. -/
structure TableDraws where
  varU : ℚ
  cleanup : CleanupDraws

/-- One entry of the list returned by `generate_raw_table_data`. -/
structure TableData where
  name : String
  rows : ℤ
  size_gb : ℚ
  rows_added : ℤ
  rows_deleted : ℤ
  avg_row_bytes : ℤ
  has_cleanup : Bool
  cleanup_occurred : Bool
deriving DecidableEq

/-- The per-table loop body of `generate_raw_table_data` (growth, optional
cleanup, 1000-row floor, size conversion). -/
def tableStep (table_name : String) (rows : ℤ) (daily_growth : ℚ)
    (avg_row_bytes : ℤ) ( has_cleanup : Bool)
    (growth_pattern server_type period_type : String) (d : TableDraws) :
    TableData :=
  let period_growth := truncInt (daily_growth * 0.5)
  let period_growth :=
    if server_type = "oltp_production" then
      truncInt ((period_growth : ℚ) * (if period_type = "day" then 1.5 else 0.3))
    else if server_type = "reporting_analytics" then
      truncInt ((period_growth : ℚ) * (if period_type = "day" then 0.5 else 2.0))
    else period_growth
  let period_growth := truncInt ((period_growth : ℚ) * pyUniform 0.7 1.4 d.varU)
  let cd :=
    if has_cleanup then
      calcRealisticCleanup table_name rows period_growth growth_pattern d.cleanup
    else (false, 0)
  let new_rows := max 1000 (rows + period_growth - cd.2)
  { name := table_name, rows := new_rows,
    size_gb := round3 (((new_rows * avg_row_bytes : ℤ) : ℚ) / 1024 ^ 3),
    rows_added := period_growth, rows_deleted := cd.2,
    avg_row_bytes := avg_row_bytes, has_cleanup := has_cleanup,
    cleanup_occurred := cd.1 }

/-! ### Autogrowth events (`generate_raw_autogrowth_events`) -/

/-- The unit draws consumed for one autogrowth event. -/
structure EventU where
  offU : ℚ
  fileU : ℚ
  incU : ℚ
  incChoiceU : ℚ
  prevU : ℚ
  durU : ℚ
  blockU : ℚ
  ioU : ℚ
  procU : ℚ

/-- Genuine `random` draws for one event. -/
def EventU.Valid (u : EventU) : Prop :=
  UnitDraw u.offU ∧ UnitDraw u.fileU ∧ UnitDraw u.incU ∧
    UnitDraw u.incChoiceU ∧ UnitDraw u.prevU ∧ UnitDraw u.durU ∧
    UnitDraw u.blockU ∧ UnitDraw u.ioU ∧ UnitDraw u.procU

/-- One autogrowth event record. -/
structure AutogrowthEvent where
  timestamp : ℚ
  file_type : String
  previous_mb : ℤ
  increment_mb : ℤ
  new_mb : ℤ
  duration_ms : ℤ
  blocking : Bool
  io_wait_ms : ℤ
  blocked_processes : ℤ
deriving DecidableEq

/-- The pattern-keyed event-count draw of `generate_raw_autogrowth_events`
(the anomaly check comes first, before any pattern dispatch). -/
def numEventsFor (is_anomaly : Bool) (growth_pattern server_type period_type : String)
    (u : ℚ) : ℕ :=
  if is_anomaly then pyRandint 180 250 u
  else if growth_pattern = "growing_fast" ∨ growth_pattern = "no_retention" ∨
      growth_pattern = "broken_cleanup" then pyRandint 10 30 u
  else if growth_pattern = "stable" then pyRandint 0 5 u
  else if growth_pattern = "archive_failure" then pyRandint 5 20 u
  else if growth_pattern = "etl_cycle" then
    if period_type = "night" then pyRandint 20 40 u else pyRandint 5 15 u
  else if growth_pattern = "static" then pyRandint 0 3 u
  else if server_type = "reference_config" then pyRandint 0 5 u
  else if server_type = "reporting_analytics" then pyRandint 15 30 u
  else pyRandint 30 60 u

/-- One iteration of the event loop in `generate_raw_autogrowth_events`. -/
def mkEvent (is_anomaly : Bool) (period_start total_seconds : ℚ) (u : EventU) :
    AutogrowthEvent :=
  let offset := pyUniform 0 total_seconds u.offU
  let event_time := period_start + offset
  let file_type := if u.fileU < 0.7 then "data" else "log"
  let increment_mb :=
    if is_anomaly then
      if u.incU < 0.8 then pyChoice [8, 16, 32] u.incChoiceU
      else pyChoice [64, 128] u.incChoiceU
    else
      if file_type = "data" then pyChoice [256, 512] u.incChoiceU
      else pyChoice [64, 128] u.incChoiceU
  let previous_mb : ℤ :=
    if file_type = "data" then (pyRandint 5000 20000 u.prevU : ℤ)
    else (pyRandint 500 2000 u.prevU : ℤ)
  let duration_ms : ℤ :=
    if increment_mb ≤ 32 then (pyRandint 100 500 u.durU : ℤ)
    else if increment_mb ≤ 128 then (pyRandint 300 1000 u.durU : ℤ)
    else (pyRandint 800 2000 u.durU : ℤ)
  let blocking := u.blockU < 0.7
  { timestamp := event_time, file_type := file_type,
    previous_mb := previous_mb, increment_mb := increment_mb,
    new_mb := previous_mb + increment_mb, duration_ms := duration_ms,
    blocking := blocking, io_wait_ms := (pyRandint 50 500 u.ioU : ℤ),
    blocked_processes := if blocking then (pyRandint 1 10 u.procU : ℤ) else 0 }

/-- `generate_raw_autogrowth_events`.  `growth_pattern0` and `server_type0`
model `db_state.get('growth_pattern', 'stable')` and
`db_state.get('server_type', 'oltp_production')`; `numU` is the event-count
draw and `us i` the draws of event `i`.  The final `events.sort(key=...)`
compares ISO-8601 timestamp strings, whose lexicographic order coincides with
chronological order for `isoformat` output, so we model it as a stable sort by
timestamp value. -/
def generate_raw_autogrowth_events (server_num : ℤ) (database_name : String)
    (growth_pattern0 server_type0 : Option String) (period_type : String)
    (period_start period_end : ℚ) (numU : ℚ) (us : ℕ → EventU) :
    List AutogrowthEvent :=
  let growth_pattern := growth_pattern0.getD "stable"
  let is_anomaly : Bool := decide (server_num = 2 ∧ database_name = "PrimaryStore_DB")
  let server_type := server_type0.getD "oltp_production"
  let num_events := numEventsFor is_anomaly growth_pattern server_type period_type numU
  let total_seconds := period_end - period_start
  let events := (List.range num_events).map
    (fun i => mkEvent is_anomaly period_start total_seconds (us i))
  events.insertionSort (fun a b => a.timestamp ≤ b.timestamp)

/-! ### State store (`load_server_state`) -/

/-- Outcome of reading the state file, abstracting the filesystem and the
JSON parser: the file may be absent (`missing`), any step of
open/read/`json.load`/`del` may raise (`failed` — all exceptions are caught by
the `except Exception` handler), or a JSON object parses into an entity-state
map (`parsed`). -/
inductive LoadOutcome (α : Type) where
  | missing : LoadOutcome α
  | failed : LoadOutcome α
  | parsed (state : List (String × α)) : LoadOutcome α

/-- `load_server_state`: total function of the read outcome — the Python
function catches every exception and returns `{}`, and strips a top-level
`metadata` key when present (`if 'metadata' in state: del state['metadata']`;
a dict has at most one entry per key, modelled by `eraseP`). -/
def load_server_state {α : Type} (r : LoadOutcome α) : List (String × α) :=
  match r with
  | .missing => []
  | .failed => []
  | .parsed state =>
      if state.any (fun e => e.1 == "metadata") then
        state.eraseP (fun e => e.1 == "metadata")
      else state

/-! ### Arithmetic helper lemmas about the time-line model -/

lemma floor3600_add (t : ℚ) (k : ℤ) :
    ⌊(t + (k : ℚ) * 3600) / 3600⌋ = ⌊t / 3600⌋ + k := by
  have h : (t + (k : ℚ) * 3600) / 3600 = t / 3600 + (k : ℚ) := by ring
  rw [h, Int.floor_add_int]

lemma floor_div24 (y : ℚ) : ⌊y / 24⌋ = ⌊y⌋ / 24 := by
  apply le_antisymm
  · have h1 : y < (⌊y⌋ : ℚ) + 1 := Int.lt_floor_add_one y
    have h2 : (⌊y⌋ : ℤ) + 1 ≤ (⌊y⌋ / 24 + 1) * 24 := by omega
    have h3 : y / 24 < ((⌊y⌋ / 24 + 1 : ℤ) : ℚ) := by
      rw [div_lt_iff₀ (by norm_num : (0 : ℚ) < 24)]
      calc y < (⌊y⌋ : ℚ) + 1 := h1
        _ ≤ ((⌊y⌋ / 24 + 1 : ℤ) : ℚ) * 24 := by
            rw [show ((⌊y⌋ / 24 + 1 : ℤ) : ℚ) * 24 = ((((⌊y⌋ / 24 + 1) * 24 : ℤ)) : ℚ) by
              push_cast; ring]
            exact_mod_cast h2
    have h4 := Int.floor_lt.mpr h3
    omega
  · rw [Int.le_floor]
    rw [le_div_iff₀ (by norm_num : (0 : ℚ) < 24)]
    calc ((⌊y⌋ / 24 : ℤ) : ℚ) * 24 = (((⌊y⌋ / 24 * 24 : ℤ)) : ℚ) := by push_cast; ring
      _ ≤ (⌊y⌋ : ℚ) := by exact_mod_cast (by omega : (⌊y⌋ / 24) * 24 ≤ ⌊y⌋)
      _ ≤ y := Int.floor_le y

lemma dayOf_eq_hourFloor_div (t : ℚ) : dayOf t = ⌊t / 3600⌋ / 24 := by
  unfold dayOf
  rw [show t / 86400 = (t / 3600) / 24 by ring, floor_div24]

lemma subHour_nonneg (t : ℚ) : 0 ≤ subHour t := by
  unfold subHour
  have h := Int.floor_le (t / 3600)
  have h2 : (⌊t / 3600⌋ : ℚ) * 3600 ≤ t := by
    have := mul_le_mul_of_nonneg_right h (by norm_num : (0 : ℚ) ≤ 3600)
    calc (⌊t / 3600⌋ : ℚ) * 3600 ≤ t / 3600 * 3600 := this
      _ = t := by ring
  linarith

lemma subHour_lt (t : ℚ) : subHour t < 3600 := by
  unfold subHour
  have h := Int.lt_floor_add_one (t / 3600)
  have h2 : t < ((⌊t / 3600⌋ : ℚ) + 1) * 3600 := by
    have := mul_lt_mul_of_pos_right h (by norm_num : (0 : ℚ) < 3600)
    calc t = t / 3600 * 3600 := by ring
      _ < ((⌊t / 3600⌋ : ℚ) + 1) * 3600 := this
  linarith

lemma timestamp_decomp (t : ℚ) :
    t = ((24 * dayOf t + hourOf t : ℤ) : ℚ) * 3600 + subHour t := by
  have h1 : ⌊t / 3600⌋ = 24 * dayOf t + hourOf t := by
    rw [dayOf_eq_hourFloor_div]
    unfold hourOf
    omega
  unfold subHour
  rw [← h1]
  ring

lemma hourOf_add_day (t : ℚ) : hourOf (t + 86400) = hourOf t := by
  unfold hourOf
  rw [show t + 86400 = t + ((24 : ℤ) : ℚ) * 3600 by norm_num, floor3600_add]
  omega

lemma hourOf_bounds (t : ℚ) : 0 ≤ hourOf t ∧ hourOf t < 24 := by
  unfold hourOf
  omega

/-! ### Scan lemmas for the latest-`period_end` computation -/

lemma latestStep_none (acc : Option ℚ) : latestStep none acc = acc := rfl

lemma latestStep_some_none (u : ℚ) : latestStep (some u) none = some u := rfl

lemma latestStep_some_some (u m : ℚ) :
    latestStep (some u) (some m) = if u > m then some u else some m := rfl

lemma latestAux_all_none (st : List (String × DbState)) :
    ∀ acc, (∀ e ∈ st, e.2.lastPeriodEnd = none) → latestAux acc st = acc := by
  induction st with
  | nil => intro acc _; rfl
  | cons e rest ih =>
      intro acc h
      have he : e.2.lastPeriodEnd = none := h e (List.mem_cons_self e rest)
      have hrest : ∀ x ∈ rest, x.2.lastPeriodEnd = none :=
        fun x hx => h x (List.mem_cons_of_mem e hx)
      simp only [latestAux, he, latestStep_none]
      exact ih acc hrest

lemma latestAux_mem (st : List (String × DbState)) :
    ∀ acc t, latestAux acc st = some t →
      acc = some t ∨ ∃ e ∈ st, e.2.lastPeriodEnd = some t := by
  induction st with
  | nil => intro acc t h; exact Or.inl h
  | cons e rest ih =>
      intro acc t h
      simp only [latestAux] at h
      rcases he : e.2.lastPeriodEnd with _ | u
      · rw [he, latestStep_none] at h
        rcases ih acc t h with h' | ⟨x, hx, hx'⟩
        · exact Or.inl h'
        · exact Or.inr ⟨x, List.mem_cons_of_mem e hx, hx'⟩
      · rw [he] at h
        rcases acc with _ | m
        · rw [latestStep_some_none] at h
          rcases ih (some u) t h with h' | ⟨x, hx, hx'⟩
          · exact Or.inr ⟨e, List.mem_cons_self e rest, by rw [he, h']⟩
          · exact Or.inr ⟨x, List.mem_cons_of_mem e hx, hx'⟩
        · rw [latestStep_some_some] at h
          by_cases hum : u > m
          · rw [if_pos hum] at h
            rcases ih (some u) t h with h' | ⟨x, hx, hx'⟩
            · exact Or.inr ⟨e, List.mem_cons_self e rest, by rw [he, h']⟩
            · exact Or.inr ⟨x, List.mem_cons_of_mem e hx, hx'⟩
          · rw [if_neg hum] at h
            rcases ih (some m) t h with h' | ⟨x, hx, hx'⟩
            · exact Or.inl h'
            · exact Or.inr ⟨x, List.mem_cons_of_mem e hx, hx'⟩

lemma latestAux_acc_some (st : List (String × DbState)) :
    ∀ m, ∃ t, latestAux (some m) st = some t := by
  induction st with
  | nil => intro m; exact ⟨m, rfl⟩
  | cons e rest ih =>
      intro m
      simp only [latestAux]
      rcases he : e.2.lastPeriodEnd with _ | u
      · rw [latestStep_none]; exact ih m
      · rw [latestStep_some_some]
        by_cases hum : u > m
        · rw [if_pos hum]; exact ih u
        · rw [if_neg hum]; exact ih m

lemma latestAux_ub (st : List (String × DbState)) :
    ∀ acc t, latestAux acc st = some t →
      (∀ m, acc = some m → m ≤ t) ∧
      (∀ e ∈ st, ∀ u, e.2.lastPeriodEnd = some u → u ≤ t) := by
  induction st with
  | nil =>
      intro acc t h
      refine ⟨fun m hm => ?_, fun e he => absurd he (List.not_mem_nil e)⟩
      rw [hm] at h
      exact le_of_eq (Option.some_injective _ h)
  | cons e rest ih =>
      intro acc t h
      simp only [latestAux] at h
      rcases he : e.2.lastPeriodEnd with _ | u
      · rw [he, latestStep_none] at h
        obtain ⟨h1, h2⟩ := ih acc t h
        refine ⟨h1, fun x hx v hv => ?_⟩
        rcases List.mem_cons.mp hx with rfl | hx'
        · rw [he] at hv; exact absurd hv (by simp)
        · exact h2 x hx' v hv
      · rw [he] at h
        rcases acc with _ | m
        · rw [latestStep_some_none] at h
          obtain ⟨h1, h2⟩ := ih (some u) t h
          refine ⟨fun m hm => by simp at hm, fun x hx v hv => ?_⟩
          rcases List.mem_cons.mp hx with rfl | hx'
          · rw [he] at hv
            have hvu : v = u := Option.some_injective _ hv.symm
            subst hvu; exact h1 v rfl
          · exact h2 x hx' v hv
        · rw [latestStep_some_some] at h
          by_cases hum : u > m
          · rw [if_pos hum] at h
            obtain ⟨h1, h2⟩ := ih (some u) t h
            have hu : u ≤ t := h1 u rfl
            refine ⟨fun m' hm' => ?_, fun x hx v hv => ?_⟩
            · have hmm : m' = m := Option.some_injective _ hm'.symm
              subst hmm
              exact le_trans (le_of_lt hum) hu
            · rcases List.mem_cons.mp hx with rfl | hx'
              · rw [he] at hv
                have hvu : v = u := Option.some_injective _ hv.symm
                subst hvu; exact hu
              · exact h2 x hx' v hv
          · rw [if_neg hum] at h
            obtain ⟨h1, h2⟩ := ih (some m) t h
            have hm : m ≤ t := h1 m rfl
            refine ⟨fun m' hm' => ?_, fun x hx v hv => ?_⟩
            · have hmm : m' = m := Option.some_injective _ hm'.symm
              subst hmm; exact hm
            · rcases List.mem_cons.mp hx with rfl | hx'
              · rw [he] at hv
                have hvu : v = u := Option.some_injective _ hv.symm
                subst hvu
                exact le_trans (not_lt.mp hum) hm
              · exact h2 x hx' v hv

lemma latestPeriodEnd_isSome (st : List (String × DbState))
    (h : ∃ e ∈ st, ∃ u, e.2.lastPeriodEnd = some u) :
    ∃ t, latestPeriodEnd st = some t := by
  unfold latestPeriodEnd
  obtain ⟨e, he, u, hu⟩ := h
  induction st with
  | nil => exact absurd he (List.not_mem_nil e)
  | cons x rest ih =>
      simp only [latestAux]
      rcases List.mem_cons.mp he with heq | he'
      · subst heq
        rw [hu, latestStep_some_none]
        exact latestAux_acc_some rest u
      · rcases hx : x.2.lastPeriodEnd with _ | v
        · rw [latestStep_none]
          exact ih he'
        · rw [latestStep_some_none]
          exact latestAux_acc_some rest v

lemma calcNext_of_latest (st : List (String × DbState)) (t : ℚ)
    (h : latestPeriodEnd st = some t) :
    calculate_next_simulation_period (some st) =
      if hourOf t = 6 then
        { period_start := t, period_end := replaceHour t 18, period_type := "day" }
      else
        { period_start := t, period_end := replaceHour (t + 86400) 6,
          period_type := "night" } := by
  unfold calculate_next_simulation_period
  simp only [h]

lemma calcNext_of_none (st : List (String × DbState))
    (h : latestPeriodEnd st = none) :
    calculate_next_simulation_period (some st) =
      { period_start := start_date, period_end := replaceHour start_date 18,
        period_type := "day" } := by
  unfold calculate_next_simulation_period
  simp only [h]

lemma hourOf_start_date : hourOf start_date = 6 := by
  norm_num [hourOf, start_date]

lemma replaceHour_start_date : replaceHour start_date 18 = start_date + 12 * 3600 := by
  rw [replaceHour, hourOf_start_date]
  norm_num

lemma subHour_add3600 (s : ℚ) (k : ℤ) : subHour (s + (k : ℚ) * 3600) = subHour s := by
  unfold subHour
  rw [floor3600_add]
  push_cast
  ring

lemma floor_subHour (t : ℚ) : ⌊subHour t / 3600⌋ = 0 := by
  have h0 := subHour_nonneg t
  have h1 := subHour_lt t
  rw [Int.floor_eq_zero_iff, Set.mem_Ico]
  constructor
  · positivity
  · rw [div_lt_one (by norm_num : (0 : ℚ) < 3600)]
    exact h1

lemma subHour_idem (t : ℚ) : subHour (subHour t) = subHour t := by
  have h : subHour (subHour t) = subHour t - (⌊subHour t / 3600⌋ : ℚ) * 3600 := rfl
  rw [h, floor_subHour]
  norm_num

lemma night_branch_end (t : ℚ) :
    replaceHour (t + 86400) 6 =
      ((dayOf t + 1 : ℤ) : ℚ) * 86400 + 6 * 3600 + subHour t := by
  rw [replaceHour, hourOf_add_day]
  have hd := timestamp_decomp t
  have h1 : ⌊t / 3600⌋ = 24 * dayOf t + hourOf t := by
    rw [dayOf_eq_hourFloor_div]
    unfold hourOf
    omega
  have hb := hourOf_bounds t
  push_cast
  push_cast at hd
  linarith

/-! ### Claim theorems for the period clock -/

/-- **C1 (amended).** For every server state whose latest recorded
`period_end` has hour component 6, `calculate_next_simulation_period` returns
the window `[prior_end, prior_end + 12h)` with type `"day"`.  For latest
`period_end` with hour component 18 it returns a `"night"` window
`[prior_end, e)` where `e` is the next calendar day at hour 06 with the prior
end's minute/second (sub-hour) remainder preserved — which is next calendar
day 06:00 exactly when the prior end is on the hour.  In both cases the
returned `period_start` equals the prior `period_end` exactly, so consecutive
periods are contiguous and non-overlapping. -/
theorem c1_period_advancement (st : List (String × DbState)) (t : ℚ)
    (h : latestPeriodEnd st = some t) :
    (hourOf t = 6 →
      calculate_next_simulation_period (some st) =
        { period_start := t, period_end := t + 12 * 3600, period_type := "day" }) ∧
    (hourOf t = 18 →
      (calculate_next_simulation_period (some st)).period_type = "night" ∧
      (calculate_next_simulation_period (some st)).period_end =
        ((dayOf t + 1 : ℤ) : ℚ) * 86400 + 6 * 3600 + subHour t) ∧
    (calculate_next_simulation_period (some st)).period_start = t := by
  rw [calcNext_of_latest st t h]
  by_cases h6 : hourOf t = 6
  · rw [if_pos h6]
    refine ⟨fun _ => ?_, fun h18 => absurd h6 (by rw [h18]; norm_num), rfl⟩
    rw [replaceHour, h6]
    norm_num
  · rw [if_neg h6]
    exact ⟨fun h' => absurd h' h6, fun _ => ⟨rfl, night_branch_end t⟩, rfl⟩

/-- **C1 counterexample.** The claim as stated predicts that whenever the
latest `period_end` has hour component 18, the returned `period_end` is the
next calendar day at exactly 06:00.  At the concrete prior end 18:30:00
(day 0 of the time line, `t = 66600`), the code returns 06:30:00 of the next
day (109800), not 06:00:00 (108000): the sub-hour remainder is preserved. -/
theorem c1_counterexample :
    hourOf (66600 : ℚ) = 18 ∧
    (calculate_next_simulation_period
        (some [("TransactionLog_DB", ⟨some 66600⟩)])).period_end ≠
      ((dayOf (66600 : ℚ) + 1 : ℤ) : ℚ) * 86400 + 6 * 3600 := by
  have h : latestPeriodEnd [("TransactionLog_DB", ⟨some (66600 : ℚ)⟩)] =
      some 66600 := rfl
  constructor
  · norm_num [hourOf]
  · rw [calcNext_of_latest _ _ h]
    rw [if_neg (by norm_num [hourOf])]
    show replaceHour (66600 + 86400 : ℚ) 6 ≠ _
    rw [replaceHour]
    norm_num [hourOf, dayOf]

/-- **C1 witness.** Concrete instantiation: a single entity whose last
`period_end` is the epoch 06:00; the next period is day-type and runs to
18:00 the same day. -/
theorem c1_witness :
    calculate_next_simulation_period (some [("PrimaryStore_DB", ⟨some start_date⟩)]) =
      { period_start := start_date, period_end := start_date + 12 * 3600,
        period_type := "day" } :=
  (c1_period_advancement [("PrimaryStore_DB", ⟨some start_date⟩)] start_date rfl).1
    hourOf_start_date

/-- **C2 (confirmed).** For every server state containing at least one entity
with a parseable `last_period.period_end`, `calculate_next_simulation_period`
advances from the maximum (latest) `period_end` over all entities in the
state map: the returned `period_start` equals that maximum, which bounds every
entity's own recorded `period_end` — in particular it is independent of any
individual entity's own history. -/
theorem c2_latest_across_entities (st : List (String × DbState))
    (h : ∃ e ∈ st, ∃ u, e.2.lastPeriodEnd = some u) :
    ∃ t, latestPeriodEnd st = some t ∧
      (∃ e ∈ st, e.2.lastPeriodEnd = some t) ∧
      (∀ e ∈ st, ∀ u, e.2.lastPeriodEnd = some u → u ≤ t) ∧
      (calculate_next_simulation_period (some st)).period_start = t := by
  obtain ⟨t, ht⟩ := latestPeriodEnd_isSome st h
  refine ⟨t, ht, ?_, (latestAux_ub st none t ht).2, ?_⟩
  · rcases latestAux_mem st none t ht with h' | h'
    · exact absurd h' (by simp)
    · exact h'
  · rw [calcNext_of_latest st t ht]
    by_cases h6 : hourOf t = 6
    · rw [if_pos h6]
    · rw [if_neg h6]

/-- **C2 witness.** A state with an entity lacking any record (`none`) next
to a sibling recorded at 18:30 of day 0: the period starts at the sibling's
`period_end`. -/
theorem c2_witness :
    ∃ t, latestPeriodEnd [("CustomerCore_DB", ⟨none⟩), ("TransactionLog_DB", ⟨some 66600⟩)] = some t ∧
      (∃ e ∈ [("CustomerCore_DB", (⟨none⟩ : DbState)), ("TransactionLog_DB", ⟨some 66600⟩)],
        e.2.lastPeriodEnd = some t) ∧
      (∀ e ∈ [("CustomerCore_DB", (⟨none⟩ : DbState)), ("TransactionLog_DB", ⟨some 66600⟩)],
        ∀ u, e.2.lastPeriodEnd = some u → u ≤ t) ∧
      (calculate_next_simulation_period
        (some [("CustomerCore_DB", ⟨none⟩), ("TransactionLog_DB", ⟨some 66600⟩)])).period_start = t :=
  c2_latest_across_entities _
    ⟨("TransactionLog_DB", ⟨some 66600⟩), by simp, 66600, rfl⟩

/-- **C7 (confirmed).** For a server state with no entity having a usable
`last_period` — including the `None` state and the empty map — the clock
returns the fixed epoch window `[2025-05-01 06:00, 2025-05-01 18:00)` with
`period_type = "day"`. -/
theorem c7_epoch_window :
    calculate_next_simulation_period none =
      { period_start := start_date, period_end := start_date + 12 * 3600,
        period_type := "day" } ∧
    ∀ st : List (String × DbState), (∀ e ∈ st, e.2.lastPeriodEnd = none) →
      calculate_next_simulation_period (some st) =
        { period_start := start_date, period_end := start_date + 12 * 3600,
          period_type := "day" } := by
  constructor
  · rw [show calculate_next_simulation_period none =
        { period_start := start_date, period_end := replaceHour start_date 18,
          period_type := "day" } from rfl, replaceHour_start_date]
  · intro st hst
    rw [calcNext_of_none st (latestAux_all_none st none hst), replaceHour_start_date]

/-- **C7 witness.** The empty map and a one-entity state with no usable
record both yield the epoch window. -/
theorem c7_witness :
    calculate_next_simulation_period (some [("DataWarehouse_DB", ⟨none⟩)]) =
      { period_start := start_date, period_end := start_date + 12 * 3600,
        period_type := "day" } :=
  c7_epoch_window.2 [("DataWarehouse_DB", ⟨none⟩)]
    (by intro e he; simp at he; rw [he])

/-- **C10 (confirmed).** For every server state whose latest recorded
`period_end` has any hour component other than 6 (not only 18),
`calculate_next_simulation_period` takes the night branch: it returns
`period_type = "night"`, `period_start` equal to that timestamp, and
`period_end` equal to the timestamp plus one day with its hour component
replaced by 6 — the calendar day advances by exactly one, the hour of the
result is 6, and the sub-hour (minute/second) remainder is preserved.  The
period type is `"day"` exactly when the hour component is 6. -/
theorem c10_non6_night_branch (st : List (String × DbState)) (t : ℚ)
    (h : latestPeriodEnd st = some t) :
    (hourOf t ≠ 6 →
      (calculate_next_simulation_period (some st)).period_type = "night" ∧
      (calculate_next_simulation_period (some st)).period_start = t ∧
      (calculate_next_simulation_period (some st)).period_end =
        replaceHour (t + 86400) 6 ∧
      hourOf (calculate_next_simulation_period (some st)).period_end = 6 ∧
      dayOf (calculate_next_simulation_period (some st)).period_end = dayOf t + 1 ∧
      subHour (calculate_next_simulation_period (some st)).period_end = subHour t) ∧
    ((calculate_next_simulation_period (some st)).period_type = "day" ↔
      hourOf t = 6) := by
  rw [calcNext_of_latest st t h]
  by_cases h6 : hourOf t = 6
  · rw [if_pos h6]
    exact ⟨fun h' => absurd h6 h', by simp [h6]⟩
  · rw [if_neg h6]
    have hE : replaceHour (t + 86400) 6 =
        subHour t + ((24 * (dayOf t + 1) + 6 : ℤ) : ℚ) * 3600 := by
      rw [night_branch_end]
      push_cast
      ring
    refine ⟨fun _ => ⟨rfl, rfl, rfl, ?_, ?_, ?_⟩, by simp [h6]⟩
    · show hourOf (replaceHour (t + 86400) 6) = 6
      rw [hE]
      unfold hourOf
      rw [floor3600_add, floor_subHour]
      omega
    · show dayOf (replaceHour (t + 86400) 6) = dayOf t + 1
      rw [hE, dayOf_eq_hourFloor_div, floor3600_add, floor_subHour]
      omega
    · show subHour (replaceHour (t + 86400) 6) = subHour t
      rw [hE, subHour_add3600, subHour_idem]

/-- **C10 witness.** At the concrete prior end 18:30:00 of day 0 the night
branch runs: type `"night"` and the end is one day later with hour forced
to 6. -/
theorem c10_witness :
    (calculate_next_simulation_period
        (some [("PrimaryStore_DB", ⟨some 66600⟩)])).period_type = "night" ∧
    (calculate_next_simulation_period
        (some [("PrimaryStore_DB", ⟨some 66600⟩)])).period_end =
      replaceHour (66600 + 86400) 6 := by
  have h := c10_non6_night_branch [("PrimaryStore_DB", ⟨some (66600 : ℚ)⟩)] 66600 rfl
  have h18 : hourOf (66600 : ℚ) ≠ 6 := by norm_num [hourOf]
  exact ⟨(h.1 h18).1, (h.1 h18).2.2.1⟩

/-! ### Helper lemmas for the randomness model -/

lemma truncInt_nonneg (q : ℚ) (h : 0 ≤ q) : 0 ≤ truncInt q := by
  unfold truncInt
  rw [if_neg (not_lt.mpr h)]
  exact Int.floor_nonneg.mpr h

lemma pyUniform_lb (a b u : ℚ) (hu : 0 ≤ u) (hab : a ≤ b) : a ≤ pyUniform a b u := by
  unfold pyUniform
  nlinarith

lemma pyUniform_ub (a b u : ℚ) (hu : u < 1) (hab : a ≤ b) :
    pyUniform a b u ≤ b := by
  unfold pyUniform
  nlinarith

lemma pyUniform_ub_strict (a b u : ℚ) (hu : u < 1) (hab : a < b) :
    pyUniform a b u < b := by
  unfold pyUniform
  nlinarith

lemma pyRandint_bounds (a b : ℕ) (u : ℚ) (hu : UnitDraw u) (hab : a ≤ b) :
    a ≤ pyRandint a b u ∧ pyRandint a b u ≤ b := by
  unfold pyRandint
  have hba : (0 : ℚ) ≤ (b : ℚ) - (a : ℚ) + 1 := by
    have : (a : ℚ) ≤ (b : ℚ) := by exact_mod_cast hab
    linarith
  have h1 : 0 ≤ ⌊u * ((b : ℚ) - (a : ℚ) + 1)⌋ :=
    Int.floor_nonneg.mpr (mul_nonneg hu.1 hba)
  have h2 : ⌊u * ((b : ℚ) - (a : ℚ) + 1)⌋ < (b : ℤ) - (a : ℤ) + 1 := by
    apply Int.floor_lt.mpr
    have hpos : (0 : ℚ) < (b : ℚ) - (a : ℚ) + 1 := by
      have : (a : ℚ) ≤ (b : ℚ) := by exact_mod_cast hab
      linarith
    have hmul : u * ((b : ℚ) - (a : ℚ) + 1) < 1 * ((b : ℚ) - (a : ℚ) + 1) :=
      mul_lt_mul_of_pos_right hu.2 hpos
    push_cast
    linarith
  omega

lemma pyChoice_mem (l : List ℤ) (u : ℚ) (hu : UnitDraw u) (hl : l ≠ []) :
    pyChoice l u ∈ l := by
  unfold pyChoice
  have hlen : 0 < l.length := List.length_pos.mpr hl
  have h1 : 0 ≤ ⌊u * (l.length : ℚ)⌋ :=
    Int.floor_nonneg.mpr (mul_nonneg hu.1 (by positivity))
  have h2 : ⌊u * (l.length : ℚ)⌋ < (l.length : ℤ) := by
    apply Int.floor_lt.mpr
    have : u * (l.length : ℚ) < 1 * (l.length : ℚ) :=
      mul_lt_mul_of_pos_right hu.2 (by exact_mod_cast hlen)
    push_cast
    linarith
  have hidx : (⌊u * (l.length : ℚ)⌋).toNat < l.length := by omega
  rw [List.getD_eq_getElem l 0 hidx]
  exact List.getElem_mem hidx

lemma round3_err (q : ℚ) : |round3 q - q| ≤ 1 / 2000 := by
  have h := abs_sub_round (q * 1000)
  rw [abs_sub_comm] at h
  unfold round3
  have heq : ((round (q * 1000) : ℤ) : ℚ) / 1000 - q =
      (((round (q * 1000) : ℤ) : ℚ) - q * 1000) / 1000 := by ring
  rw [heq, abs_div, abs_of_pos (by norm_num : (0 : ℚ) < 1000),
    show (1 : ℚ) / 2000 = (1 / 2) / 1000 by norm_num]
  gcongr

lemma round3_split (x r : ℚ) :
    |round3 (x * r) + round3 (x * (1 - r)) - round3 x| ≤ 3 / 2000 := by
  have h1 := round3_err (x * r)
  have h2 := round3_err (x * (1 - r))
  have h3 := round3_err x
  obtain ⟨h1a, h1b⟩ := abs_le.mp h1
  obtain ⟨h2a, h2b⟩ := abs_le.mp h2
  obtain ⟨h3a, h3b⟩ := abs_le.mp h3
  rw [abs_le]
  constructor <;> nlinarith

lemma ioRates_nonneg (rb wb : ℚ) (pt st : String) (hrb : 0 ≤ rb) (hwb : 0 ≤ wb) :
    0 ≤ (ioRates rb wb pt st).1 ∧ 0 ≤ (ioRates rb wb pt st).2 := by
  unfold ioRates
  split_ifs <;>
    exact ⟨mul_nonneg hrb (by norm_num), mul_nonneg hwb (by norm_num)⟩

/-! ### Claim theorems for the growth model -/

/-- **C6 (confirmed).** With non-negative configured baselines, every
invocation of `generate_raw_io_data` produces non-negative `reads`/`writes`,
sets the cumulative counters to exactly the old value plus that non-negative
amount (never resetting or decrementing), and hence across any sequence of
runs the cumulative counters are monotonically non-decreasing. -/
theorem c6_cumulative_io_monotone :
    (∀ (cr0 cw0 : Option ℤ) (rb wb : ℚ) (pt st : String) (uR uW : ℚ),
      0 ≤ rb → 0 ≤ wb → UnitDraw uR → UnitDraw uW →
      0 ≤ (generate_raw_io_data cr0 cw0 rb wb pt st uR uW).reads ∧
      0 ≤ (generate_raw_io_data cr0 cw0 rb wb pt st uR uW).writes ∧
      (generate_raw_io_data cr0 cw0 rb wb pt st uR uW).cumulative_reads =
        cr0.getD 0 + (generate_raw_io_data cr0 cw0 rb wb pt st uR uW).reads ∧
      (generate_raw_io_data cr0 cw0 rb wb pt st uR uW).cumulative_writes =
        cw0.getD 0 + (generate_raw_io_data cr0 cw0 rb wb pt st uR uW).writes ∧
      cr0.getD 0 ≤ (generate_raw_io_data cr0 cw0 rb wb pt st uR uW).cumulative_reads ∧
      cw0.getD 0 ≤ (generate_raw_io_data cr0 cw0 rb wb pt st uR uW).cumulative_writes) ∧
    (∀ runs : List IORun, (∀ r ∈ runs, r.Valid) →
      ∀ c : ℤ × ℤ,
        c.1 ≤ (cumulativeAfter c runs).1 ∧ c.2 ≤ (cumulativeAfter c runs).2) := by
  have step : ∀ (cr0 cw0 : Option ℤ) (rb wb : ℚ) (pt st : String) (uR uW : ℚ),
      0 ≤ rb → 0 ≤ wb → UnitDraw uR → UnitDraw uW →
      0 ≤ (generate_raw_io_data cr0 cw0 rb wb pt st uR uW).reads ∧
      0 ≤ (generate_raw_io_data cr0 cw0 rb wb pt st uR uW).writes := by
    intro cr0 cw0 rb wb pt st uR uW hrb hwb huR huW
    obtain ⟨hr1, hr2⟩ := ioRates_nonneg rb wb pt st hrb hwb
    constructor
    · exact truncInt_nonneg _ (mul_nonneg (mul_nonneg hr1 (by norm_num))
        (le_trans (by norm_num) (pyUniform_lb 0.85 1.15 uR huR.1 (by norm_num))))
    · exact truncInt_nonneg _ (mul_nonneg (mul_nonneg hr2 (by norm_num))
        (le_trans (by norm_num) (pyUniform_lb 0.85 1.15 uW huW.1 (by norm_num))))
  constructor
  · intro cr0 cw0 rb wb pt st uR uW hrb hwb huR huW
    obtain ⟨h1, h2⟩ := step cr0 cw0 rb wb pt st uR uW hrb hwb huR huW
    exact ⟨h1, h2, rfl, rfl, le_add_of_nonneg_right h1, le_add_of_nonneg_right h2⟩
  · intro runs hruns
    induction runs with
    | nil => intro c; exact ⟨le_refl _, le_refl _⟩
    | cons r rs ih =>
        intro c
        have hr : r.Valid := hruns r (List.mem_cons_self r rs)
        have hrs : ∀ x ∈ rs, x.Valid := fun x hx => hruns x (List.mem_cons_of_mem r hx)
        obtain ⟨hreads, hwrites⟩ := step (some c.1) (some c.2)
          r.reads_per_second_baseline r.writes_per_second_baseline
          r.period_type r.server_type r.uR r.uW hr.1 hr.2.1 hr.2.2.1 hr.2.2.2
        have hstep : cumulativeAfter c (r :: rs) =
            cumulativeAfter
              ((generate_raw_io_data (some c.1) (some c.2)
                  r.reads_per_second_baseline r.writes_per_second_baseline
                  r.period_type r.server_type r.uR r.uW).cumulative_reads,
               (generate_raw_io_data (some c.1) (some c.2)
                  r.reads_per_second_baseline r.writes_per_second_baseline
                  r.period_type r.server_type r.uR r.uW).cumulative_writes) rs := rfl
        rw [hstep]
        obtain ⟨ih1, ih2⟩ := ih hrs _
        constructor
        · exact le_trans (le_add_of_nonneg_right hreads) ih1
        · exact le_trans (le_add_of_nonneg_right hwrites) ih2

/-- **C6 witness.** A concrete invocation on an OLTP day period with
baselines 100/50 reads/writes per second. -/
theorem c6_witness :
    0 ≤ (generate_raw_io_data (some 5) none 100 50 "day" "oltp_production"
        0 (1/2)).reads ∧
    0 ≤ (generate_raw_io_data (some 5) none 100 50 "day" "oltp_production"
        0 (1/2)).writes ∧
    (generate_raw_io_data (some 5) none 100 50 "day" "oltp_production"
        0 (1/2)).cumulative_reads =
      (some (5 : ℤ)).getD 0 + (generate_raw_io_data (some 5) none 100 50 "day"
        "oltp_production" 0 (1/2)).reads ∧
    (generate_raw_io_data (some 5) none 100 50 "day" "oltp_production"
        0 (1/2)).cumulative_writes =
      (none : Option ℤ).getD 0 + (generate_raw_io_data (some 5) none 100 50 "day"
        "oltp_production" 0 (1/2)).writes ∧
    (some (5 : ℤ)).getD 0 ≤ (generate_raw_io_data (some 5) none 100 50 "day"
        "oltp_production" 0 (1/2)).cumulative_reads ∧
    (none : Option ℤ).getD 0 ≤ (generate_raw_io_data (some 5) none 100 50 "day"
        "oltp_production" 0 (1/2)).cumulative_writes :=
  c6_cumulative_io_monotone.1 (some 5) none 100 50 "day" "oltp_production" 0 (1/2)
    (by norm_num) (by norm_num) ⟨by norm_num, by norm_num⟩ ⟨by norm_num, by norm_num⟩

/-- **C8 (confirmed).** For every size computation, every entity state,
period type, entity class and draws, `data_file_gb + log_file_gb` equals
`total_gb` up to the error of the three roundings to 3 decimal places
(each rounding is off by at most 1/2000, so the sum is within 3/2000);
and the data-fraction is the fixed 0.75 / 0.90 / 0.95 split by class. -/
theorem c8_size_split (current_size_gb0 : Option ℚ)
    (growth_pattern0 : Option String) (period_type server_type : String)
    (d : SizeDraws) :
    |(generate_raw_size_data current_size_gb0 growth_pattern0 period_type
          server_type d).data_file_gb +
      (generate_raw_size_data current_size_gb0 growth_pattern0 period_type
          server_type d).log_file_gb -
      (generate_raw_size_data current_size_gb0 growth_pattern0 period_type
          server_type d).total_gb| ≤ 3 / 2000 ∧
    dataRatio "oltp_production" = 0.75 ∧
    dataRatio "reporting_analytics" = 0.90 ∧
    dataRatio "reference_config" = 0.95 :=
  ⟨round3_split _ _, rfl, rfl, rfl⟩

lemma truncInt_half (rows : ℤ) (hr : 0 ≤ rows) :
    truncInt ((rows : ℚ) * 0.5) = rows / 2 := by
  unfold truncInt
  rw [if_neg (not_lt.mpr (mul_nonneg (by exact_mod_cast hr) (by norm_num)))]
  have h := Rat.floor_intCast_div_natCast rows 2
  rw [show ((rows : ℚ) * 0.5) = ((rows : ℤ) : ℚ) / ((2 : ℕ) : ℚ) by push_cast; ring]
  exact h

/-- **C3 (confirmed).** Whenever cleanup runs for a table (for every table
name, row count, non-negative period growth, growth pattern and valid random
draws), the number of rows deleted is produced by the ordered three-branch
policy — branch 1 (probability 0.15): 1.2–2.0 × period growth; else branch 2
(probability 0.10): exactly the period growth; else: 0.3–0.9 × period
growth — then capped at 50% of the pre-cleanup row count and floored at
zero; and every table row count produced by `generate_raw_table_data` is at
least 1000. -/
theorem c3_cleanup_policy :
    (∀ (table_name : String) (rows period_growth : ℤ) (growth_pattern : String)
        (d : CleanupDraws), d.Valid → 0 ≤ period_growth → 0 ≤ rows →
      (calcRealisticCleanup table_name rows period_growth growth_pattern d).1 = true →
      ∃ raw : ℤ,
        ((d.branch1U < 0.15 ∧
            ∃ f, 1.2 ≤ f ∧ f ≤ 2.0 ∧ raw = truncInt ((period_growth : ℚ) * f)) ∨
         (¬ d.branch1U < 0.15 ∧ d.branch2U < 0.10 ∧ raw = period_growth) ∨
         (¬ d.branch1U < 0.15 ∧ ¬ d.branch2U < 0.10 ∧
            ∃ f, 0.3 ≤ f ∧ f ≤ 0.9 ∧ raw = truncInt ((period_growth : ℚ) * f))) ∧
        (calcRealisticCleanup table_name rows period_growth growth_pattern d).2 =
          max 0 (min raw (truncInt ((rows : ℚ) * 0.5))) ∧
        0 ≤ (calcRealisticCleanup table_name rows period_growth growth_pattern d).2 ∧
        2 * (calcRealisticCleanup table_name rows period_growth growth_pattern d).2 ≤
          rows) ∧
    (∀ (table_name : String) (rows : ℤ) (daily_growth : ℚ) (avg_row_bytes : ℤ)
        (has_cleanup : Bool) (growth_pattern server_type period_type : String)
        (d : TableDraws),
      1000 ≤ (tableStep table_name rows daily_growth avg_row_bytes has_cleanup
        growth_pattern server_type period_type d).rows) := by
  constructor
  · intro tn rows g gp d hv hg hr hocc
    have hcap0 : 0 ≤ truncInt ((rows : ℚ) * 0.5) :=
      truncInt_nonneg _ (mul_nonneg (by exact_mod_cast hr) (by norm_num))
    have hcap2 : 2 * truncInt ((rows : ℚ) * 0.5) ≤ rows := by
      rw [truncInt_half rows hr]
      omega
    unfold calcRealisticCleanup at hocc ⊢
    by_cases hrun : d.runU > cleanupProbability gp
    · rw [if_pos hrun] at hocc
      exact absurd hocc (by simp)
    · rw [if_neg hrun]
      have hfu := hv.2.2.2.2
      by_cases hb1 : d.branch1U < 0.15
      · refine ⟨truncInt ((g : ℚ) * pyUniform 1.2 2.0 d.factorU),
          Or.inl ⟨hb1, pyUniform 1.2 2.0 d.factorU,
            pyUniform_lb 1.2 2.0 d.factorU hfu.1 (by norm_num),
            pyUniform_ub 1.2 2.0 d.factorU hfu.2 (by norm_num), rfl⟩, ?_, ?_, ?_⟩
        · show max 0 (min (if d.branch1U < 0.15 then _ else _) _) = _
          rw [if_pos hb1]
        · show 0 ≤ max 0 (min (if d.branch1U < 0.15 then _ else _) _)
          exact le_max_left _ _
        · show 2 * max 0 (min (if d.branch1U < 0.15 then _ else _) _) ≤ rows
          rw [if_pos hb1]
          have := min_le_right (truncInt ((g : ℚ) * pyUniform 1.2 2.0 d.factorU))
            (truncInt ((rows : ℚ) * 0.5))
          omega
      · by_cases hb2 : d.branch2U < 0.10
        · refine ⟨g, Or.inr (Or.inl ⟨hb1, hb2, rfl⟩), ?_, ?_, ?_⟩
          · show max 0 (min (if d.branch1U < 0.15 then _ else _) _) = _
            rw [if_neg hb1, if_pos hb2]
          · show 0 ≤ max 0 (min (if d.branch1U < 0.15 then _ else _) _)
            exact le_max_left _ _
          · show 2 * max 0 (min (if d.branch1U < 0.15 then _ else _) _) ≤ rows
            rw [if_neg hb1, if_pos hb2]
            have := min_le_right g (truncInt ((rows : ℚ) * 0.5))
            omega
        · refine ⟨truncInt ((g : ℚ) * pyUniform 0.3 0.9 d.factorU),
            Or.inr (Or.inr ⟨hb1, hb2, pyUniform 0.3 0.9 d.factorU,
              pyUniform_lb 0.3 0.9 d.factorU hfu.1 (by norm_num),
              pyUniform_ub 0.3 0.9 d.factorU hfu.2 (by norm_num), rfl⟩), ?_, ?_, ?_⟩
          · show max 0 (min (if d.branch1U < 0.15 then _ else _) _) = _
            rw [if_neg hb1, if_neg hb2]
          · show 0 ≤ max 0 (min (if d.branch1U < 0.15 then _ else _) _)
            exact le_max_left _ _
          · show 2 * max 0 (min (if d.branch1U < 0.15 then _ else _) _) ≤ rows
            rw [if_neg hb1, if_neg hb2]
            have := min_le_right (truncInt ((g : ℚ) * pyUniform 0.3 0.9 d.factorU))
              (truncInt ((rows : ℚ) * 0.5))
            omega
  · intro tn rows dg arb hc gp st pt d
    exact le_max_left _ _

/-- **C3 witness.** Cleanup on an audit-log table of 10000 rows with period
growth 100 under the `stable` pattern, all unit draws 0 (cleanup runs and the
aggressive branch is taken). -/
theorem c3_witness :
    ∃ raw : ℤ,
      (((0 : ℚ) < 0.15 ∧
          ∃ f, 1.2 ≤ f ∧ f ≤ 2.0 ∧ raw = truncInt (((100 : ℤ) : ℚ) * f)) ∨
       (¬ (0 : ℚ) < 0.15 ∧ (0 : ℚ) < 0.10 ∧ raw = (100 : ℤ)) ∨
       (¬ (0 : ℚ) < 0.15 ∧ ¬ (0 : ℚ) < 0.10 ∧
          ∃ f, 0.3 ≤ f ∧ f ≤ 0.9 ∧ raw = truncInt (((100 : ℤ) : ℚ) * f))) ∧
      (calcRealisticCleanup "audit_log" 10000 100 "stable" ⟨0, 0, 0, 0, 0⟩).2 =
        max 0 (min raw (truncInt (((10000 : ℤ) : ℚ) * 0.5))) ∧
      0 ≤ (calcRealisticCleanup "audit_log" 10000 100 "stable" ⟨0, 0, 0, 0, 0⟩).2 ∧
      2 * (calcRealisticCleanup "audit_log" 10000 100 "stable" ⟨0, 0, 0, 0, 0⟩).2 ≤
        10000 := by
  have hocc : (calcRealisticCleanup "audit_log" 10000 100 "stable"
      ⟨0, 0, 0, 0, 0⟩).1 = true := by
    have h1 : cleanupProbability "stable" = 7 / 10 := by
      unfold cleanupProbability
      rw [if_neg (by decide), if_neg (by decide), if_pos rfl]
      norm_num
    unfold calcRealisticCleanup
    rw [h1]
    norm_num
  exact c3_cleanup_policy.1 "audit_log" 10000 100 "stable" ⟨0, 0, 0, 0, 0⟩
    ⟨⟨le_refl 0, by norm_num⟩, ⟨le_refl 0, by norm_num⟩, ⟨le_refl 0, by norm_num⟩,
     ⟨le_refl 0, by norm_num⟩, ⟨le_refl 0, by norm_num⟩⟩
    (by norm_num) (by norm_num) hocc

/-! ### Lemmas for the autogrowth event generator -/

lemma mkEvent_timestamp (a : Bool) (ps tot : ℚ) (u : EventU) :
    (mkEvent a ps tot u).timestamp = ps + pyUniform 0 tot u.offU := rfl

lemma mkEvent_increment_anomaly (ps tot : ℚ) (u : EventU) :
    (mkEvent true ps tot u).increment_mb =
      if u.incU < 0.8 then pyChoice [8, 16, 32] u.incChoiceU
      else pyChoice [64, 128] u.incChoiceU := rfl

lemma genAG_anomaly_eq (growth_pattern0 server_type0 : Option String)
    (period_type : String) (ps pe : ℚ) (numU : ℚ) (us : ℕ → EventU) :
    generate_raw_autogrowth_events 2 "PrimaryStore_DB" growth_pattern0
        server_type0 period_type ps pe numU us =
      ((List.range (pyRandint 180 250 numU)).map
        (fun i => mkEvent true ps (pe - ps) (us i))).insertionSort
        (fun a b => a.timestamp ≤ b.timestamp) := rfl

lemma sorted_by_timestamp (l : List AutogrowthEvent) :
    List.Sorted (fun a b : AutogrowthEvent => a.timestamp ≤ b.timestamp)
      (l.insertionSort (fun a b => a.timestamp ≤ b.timestamp)) := by
  haveI : IsTotal AutogrowthEvent (fun a b => a.timestamp ≤ b.timestamp) :=
    ⟨fun a b => le_total _ _⟩
  haveI : IsTrans AutogrowthEvent (fun a b => a.timestamp ≤ b.timestamp) :=
    ⟨fun a b c hab hbc => le_trans hab hbc⟩
  exact List.sorted_insertionSort _ l

lemma mem_small_menu (x : ℤ) (h : x ∈ ([8, 16, 32] : List ℤ)) :
    x ∈ ([8, 16, 32, 64, 128] : List ℤ) := by
  simp only [List.mem_cons, List.not_mem_nil, or_false] at h ⊢
  tauto

lemma mem_large_menu (x : ℤ) (h : x ∈ ([64, 128] : List ℤ)) :
    x ∈ ([8, 16, 32, 64, 128] : List ℤ) := by
  simp only [List.mem_cons, List.not_mem_nil, or_false] at h ⊢
  tauto

/-- **C4 (confirmed).** For the designated anomaly entity (server 2,
database `PrimaryStore_DB`), `generate_raw_autogrowth_events` always
produces between 180 and 250 events, each with `increment_mb` in
`{8, 16, 32, 64, 128}` — for every stored growth pattern and server type,
every period and all valid random draws. -/
theorem c4_anomaly_events (growth_pattern0 server_type0 : Option String)
    (period_type : String) (ps pe : ℚ) (numU : ℚ) (us : ℕ → EventU)
    (hnum : UnitDraw numU) (hus : ∀ i, (us i).Valid) :
    180 ≤ (generate_raw_autogrowth_events 2 "PrimaryStore_DB" growth_pattern0
      server_type0 period_type ps pe numU us).length ∧
    (generate_raw_autogrowth_events 2 "PrimaryStore_DB" growth_pattern0
      server_type0 period_type ps pe numU us).length ≤ 250 ∧
    ∀ e ∈ generate_raw_autogrowth_events 2 "PrimaryStore_DB" growth_pattern0
      server_type0 period_type ps pe numU us,
      e.increment_mb ∈ ([8, 16, 32, 64, 128] : List ℤ) := by
  rw [genAG_anomaly_eq]
  have hperm := List.perm_insertionSort
    (fun a b : AutogrowthEvent => a.timestamp ≤ b.timestamp)
    ((List.range (pyRandint 180 250 numU)).map
      (fun i => mkEvent true ps (pe - ps) (us i)))
  have hlen : (((List.range (pyRandint 180 250 numU)).map
      (fun i => mkEvent true ps (pe - ps) (us i))).insertionSort
      (fun a b => a.timestamp ≤ b.timestamp)).length = pyRandint 180 250 numU := by
    rw [hperm.length_eq, List.length_map, List.length_range]
  obtain ⟨hn1, hn2⟩ := pyRandint_bounds 180 250 numU hnum (by norm_num)
  refine ⟨by omega, by omega, ?_⟩
  intro e he
  have he' := hperm.subset he
  obtain ⟨i, _, hi⟩ := List.mem_map.mp he'
  have hinc := mkEvent_increment_anomaly ps (pe - ps) (us i)
  rw [hi] at hinc
  rw [hinc]
  by_cases hu : (us i).incU < 0.8
  · rw [if_pos hu]
    exact mem_small_menu _ (pyChoice_mem [8, 16, 32] (us i).incChoiceU
      (hus i).2.2.2.1 (by simp))
  · rw [if_neg hu]
    exact mem_large_menu _ (pyChoice_mem [64, 128] (us i).incChoiceU
      (hus i).2.2.2.1 (by simp))

/-- **C4 witness.** The anomaly entity with stored pattern `growing_fast`
on a concrete day period and all-zero draws. -/
theorem c4_witness :
    180 ≤ (generate_raw_autogrowth_events 2 "PrimaryStore_DB"
      (some "growing_fast") none "day" 0 43200 0
      (fun _ => ⟨0, 0, 0, 0, 0, 0, 0, 0, 0⟩)).length ∧
    (generate_raw_autogrowth_events 2 "PrimaryStore_DB"
      (some "growing_fast") none "day" 0 43200 0
      (fun _ => ⟨0, 0, 0, 0, 0, 0, 0, 0, 0⟩)).length ≤ 250 ∧
    ∀ e ∈ generate_raw_autogrowth_events 2 "PrimaryStore_DB"
      (some "growing_fast") none "day" 0 43200 0
      (fun _ => ⟨0, 0, 0, 0, 0, 0, 0, 0, 0⟩),
      e.increment_mb ∈ ([8, 16, 32, 64, 128] : List ℤ) :=
  c4_anomaly_events (some "growing_fast") none "day" 0 43200 0
    (fun _ => ⟨0, 0, 0, 0, 0, 0, 0, 0, 0⟩) ⟨le_refl 0, by norm_num⟩
    (fun _ => ⟨⟨le_refl 0, by norm_num⟩, ⟨le_refl 0, by norm_num⟩,
      ⟨le_refl 0, by norm_num⟩, ⟨le_refl 0, by norm_num⟩, ⟨le_refl 0, by norm_num⟩,
      ⟨le_refl 0, by norm_num⟩, ⟨le_refl 0, by norm_num⟩, ⟨le_refl 0, by norm_num⟩,
      ⟨le_refl 0, by norm_num⟩⟩)

/-- **C5 (confirmed).** For every entity, period with `period_start <
period_end` (every period produced by `calculate_next_simulation_period`
satisfies this, as the last conjunct shows), and valid random draws, every
autogrowth event returned by `generate_raw_autogrowth_events` has its
timestamp in `[period_start, period_end)`, and the returned list is sorted
by timestamp ascending. -/
theorem c5_event_timestamps (server_num : ℤ) (database_name : String)
    (growth_pattern0 server_type0 : Option String) (period_type : String)
    (ps pe : ℚ) (numU : ℚ) (us : ℕ → EventU)
    (hus : ∀ i, (us i).Valid) (hlt : ps < pe) :
    ((∀ e ∈ generate_raw_autogrowth_events server_num database_name
        growth_pattern0 server_type0 period_type ps pe numU us,
      ps ≤ e.timestamp ∧ e.timestamp < pe) ∧
    List.Sorted (fun a b : AutogrowthEvent => a.timestamp ≤ b.timestamp)
      (generate_raw_autogrowth_events server_num database_name
        growth_pattern0 server_type0 period_type ps pe numU us)) ∧
    ∀ sstate : Option (List (String × DbState)),
      (calculate_next_simulation_period sstate).period_start <
        (calculate_next_simulation_period sstate).period_end := by
  refine ⟨?_, ?_⟩
  case refine_2 =>
    intro sstate
    have hgeneric : ∀ t : ℚ, t < replaceHour (t + 86400) 6 := by
      intro t
      rw [replaceHour, hourOf_add_day]
      have hb := hourOf_bounds t
      have hcast : (hourOf t : ℚ) < 24 := by exact_mod_cast hb.2
      push_cast
      nlinarith
    rcases sstate with _ | st
    · show start_date < replaceHour start_date 18
      rw [replaceHour_start_date]
      norm_num
    · rcases hl : latestPeriodEnd st with _ | t
      · rw [calcNext_of_none st hl]
        show start_date < replaceHour start_date 18
        rw [replaceHour_start_date]
        norm_num
      · rw [calcNext_of_latest st t hl]
        by_cases h6 : hourOf t = 6
        · rw [if_pos h6]
          show t < replaceHour t 18
          rw [replaceHour, h6]
          norm_num
        · rw [if_neg h6]
          exact hgeneric t
  case refine_1 =>
    have hgen : generate_raw_autogrowth_events server_num database_name
        growth_pattern0 server_type0 period_type ps pe numU us =
      ((List.range (numEventsFor
          (decide (server_num = 2 ∧ database_name = "PrimaryStore_DB"))
          (growth_pattern0.getD "stable") (server_type0.getD "oltp_production")
          period_type numU)).map
        (fun i => mkEvent
          (decide (server_num = 2 ∧ database_name = "PrimaryStore_DB"))
          ps (pe - ps) (us i))).insertionSort
        (fun a b => a.timestamp ≤ b.timestamp) := rfl
    rw [hgen]
    constructor
    · intro e he
      have hperm := List.perm_insertionSort
        (fun a b : AutogrowthEvent => a.timestamp ≤ b.timestamp)
        ((List.range (numEventsFor
            (decide (server_num = 2 ∧ database_name = "PrimaryStore_DB"))
            (growth_pattern0.getD "stable") (server_type0.getD "oltp_production")
            period_type numU)).map
          (fun i => mkEvent
            (decide (server_num = 2 ∧ database_name = "PrimaryStore_DB"))
            ps (pe - ps) (us i)))
      obtain ⟨i, _, hi⟩ := List.mem_map.mp (hperm.subset he)
      have hts := mkEvent_timestamp
        (decide (server_num = 2 ∧ database_name = "PrimaryStore_DB"))
        ps (pe - ps) (us i)
      rw [hi] at hts
      rw [hts]
      have hoff := (hus i).1
      constructor
      · have h0 : 0 ≤ pyUniform 0 (pe - ps) (us i).offU :=
          pyUniform_lb 0 (pe - ps) (us i).offU hoff.1 (by linarith)
        linarith
      · have h1 : pyUniform 0 (pe - ps) (us i).offU < pe - ps :=
          pyUniform_ub_strict 0 (pe - ps) (us i).offU hoff.2 (by linarith)
        linarith
    · exact sorted_by_timestamp _

/-- **C5 witness.** A concrete stable entity on the epoch day window with
all-zero draws: all timestamps lie in the window and the list is sorted. -/
theorem c5_witness :
    (∀ e ∈ generate_raw_autogrowth_events 1 "TransactionLog_DB"
        (some "stable") none "day" 0 43200 0
        (fun _ => ⟨0, 0, 0, 0, 0, 0, 0, 0, 0⟩),
      (0 : ℚ) ≤ e.timestamp ∧ e.timestamp < 43200) ∧
    List.Sorted (fun a b : AutogrowthEvent => a.timestamp ≤ b.timestamp)
      (generate_raw_autogrowth_events 1 "TransactionLog_DB"
        (some "stable") none "day" 0 43200 0
        (fun _ => ⟨0, 0, 0, 0, 0, 0, 0, 0, 0⟩)) :=
  (c5_event_timestamps 1 "TransactionLog_DB" (some "stable") none "day"
    0 43200 0 (fun _ => ⟨0, 0, 0, 0, 0, 0, 0, 0, 0⟩)
    (fun _ => ⟨⟨le_refl 0, by norm_num⟩, ⟨le_refl 0, by norm_num⟩,
      ⟨le_refl 0, by norm_num⟩, ⟨le_refl 0, by norm_num⟩, ⟨le_refl 0, by norm_num⟩,
      ⟨le_refl 0, by norm_num⟩, ⟨le_refl 0, by norm_num⟩, ⟨le_refl 0, by norm_num⟩,
      ⟨le_refl 0, by norm_num⟩⟩)
    (by norm_num)).1

/-! ### Lemmas for the state store -/

lemma eraseP_metadata_eq_filter {α : Type} (state : List (String × α))
    (h : (state.map Prod.fst).Nodup) :
    state.eraseP (fun e => e.1 == "metadata") =
      state.filter (fun e => !(e.1 == "metadata")) := by
  induction state with
  | nil => rfl
  | cons x xs ih =>
      rw [List.map_cons, List.nodup_cons] at h
      by_cases hx : x.1 = "metadata"
      · rw [List.eraseP_cons_of_pos (by simp [hx]),
          List.filter_cons_of_neg (by simp [hx])]
        symm
        rw [List.filter_eq_self]
        intro e he
        simp only [Bool.not_eq_true', beq_eq_false_iff_ne, ne_eq]
        intro heq
        exact h.1 (List.mem_map.mpr ⟨e, he, by rw [heq, hx]⟩)
      · rw [List.eraseP_cons_of_neg (by simp [hx]),
          List.filter_cons_of_pos (by simp [hx]), ih h.2]

/-- **C9 (confirmed).** `load_server_state` never raises: it is a total
function of the file-read outcome.  It returns the empty map when the state
file is missing or when any read/parse step fails, and on success returns
the parsed entity-state map with the top-level `metadata` wrapper key
removed (for a genuine dict, i.e. with no duplicate keys, this is exactly
the map restricted to non-`metadata` keys). -/
theorem c9_load_state_total {α : Type} :
    load_server_state (LoadOutcome.missing : LoadOutcome α) = [] ∧
    load_server_state (LoadOutcome.failed : LoadOutcome α) = [] ∧
    ∀ state : List (String × α), (state.map Prod.fst).Nodup →
      load_server_state (LoadOutcome.parsed state) =
        state.filter (fun e => !(e.1 == "metadata")) := by
  refine ⟨rfl, rfl, fun state h => ?_⟩
  show (if state.any (fun e => e.1 == "metadata") then
      state.eraseP (fun e => e.1 == "metadata") else state) = _
  by_cases hmeta : state.any (fun e => e.1 == "metadata") = true
  · rw [if_pos hmeta]
    exact eraseP_metadata_eq_filter state h
  · rw [if_neg hmeta]
    symm
    rw [List.filter_eq_self]
    intro e he
    simp only [List.any_eq_true, not_exists, not_and] at hmeta
    simp only [Bool.not_eq_true', beq_eq_false_iff_ne, ne_eq]
    intro heq
    exact absurd (by simp [heq] : (fun e : String × α => e.1 == "metadata") e = true)
      (by simpa using hmeta e he)

/-- **C9 witness.** A parsed state with a `metadata` wrapper next to one
entity: the wrapper is stripped; the other entity survives. -/
theorem c9_witness :
    load_server_state (LoadOutcome.parsed
        [("metadata", (7 : ℤ)), ("TransactionLog_DB", 5)]) =
      [("TransactionLog_DB", 5)] := by
  rw [c9_load_state_total.2.2 [("metadata", (7 : ℤ)), ("TransactionLog_DB", 5)]
    (by simp)]
  rfl

end GrowthSim
